import Mathlib

/-!
Verification of the `stitch` multipart-upload tool.

The repository contains three Go variants of the same program:
`src/main.go` (the primary file), `src/unnamed/part_000` (a refactored
variant with an `uploadParts` function) and `src/unnamed/part_001` (an
older variant).  Each run opens a local file, creates a multipart-upload
session on the storage service, uploads the file in fixed-size chunks,
and either completes or aborts the session.

We shallowly embed the run as a pure function from the command-line
flags, a file-system environment and a storage-client oracle to a trace
of observable events plus a final outcome.  Go semantics that matter
here and are encoded directly:

* `log.Fatalf` calls `os.Exit`, which terminates the process WITHOUT
  running deferred functions; hence `defer f.Close()` in `main.go` runs
  only when `main` returns normally.  A `return` statement (as used in
  `uploadParts` of `part_000`) does run the deferred `f.Close()`, and a
  panic also runs deferred functions.
* `f.Read(buffer)` on a regular file returns `min(len(buffer), bytes
  remaining)` bytes; at end of stream it returns `(0, io.EOF)`; with a
  zero-length buffer it returns `(0, nil)`.  A mid-stream read fault is
  modelled by an oracle giving the index of the failing read call.
* In `main.go` the flag-validation block only prints messages; it does
  not stop the run (there is no `os.Exit` and no `log.Fatal` there).
  In `part_000` both validation blocks end in `os.Exit(1)`.
* `make([]byte, n)` panics for negative `n`.
-/

namespace Stitch

/-- A byte of the source file, modelled as a natural number. -/
abbrev Byte := Nat

/-- `defaultChunkSize = 15 * 1024 * 1024` from the source. -/
def defaultChunkSize : Int := 15 * 1024 * 1024

/-- `minimumChunkSize = 5 * 1024 * 1024` from the source. -/
def minimumChunkSize : Int := 5 * 1024 * 1024

/-- Observable events of one run: the storage-service calls issued by
the program and the `f.Close()` call on the local file handle.
`upload` records the part number and the exact payload bytes passed to
`UploadPart`; `complete` records the manifest (partNumber, etag) list
passed to `CompleteMultipartUpload`. -/
inductive Ev where
  | create
  | upload (partNum : Nat) (payload : List Byte)
  | abort
  | complete (manifest : List (Nat × String))
  | closeF
deriving DecidableEq

/-- How a run can end short of success, mirroring the program's fatal
error sites: config validation exit (`part_000` only), `os.Open`
failure, `CreateMultipartUpload` failure, a non-EOF `f.Read` failure at
a given read index, an `UploadPart` failure at a given part number, a
`CompleteMultipartUpload` failure, and the runtime panic of
`make([]byte, n)` with negative `n`. -/
inductive RunErr where
  | configErr
  | openErr
  | createErr
  | readErr (idx : Nat)
  | partErr (k : Nat)
  | completeErr
  | panicNegSize
deriving DecidableEq

/-- Oracle for the storage client's responses.  `createResp` is the
upload id granted by `CreateMultipartUpload` (or `none` on failure),
`uploadResp pn` the etag for part `pn` (or `none` on failure),
`completeOk` whether `CompleteMultipartUpload` succeeds, and `abortOk`
whether `AbortMultipartUpload` succeeds.  The programs discard the
abort result (`_, _ =`), so `abortOk` is never read by the models. -/
structure ClientOracle where
  createResp : Option String
  uploadResp : Nat → Option String
  completeOk : Bool
  abortOk : Bool

/-- The parsed command-line flags. -/
structure Flags where
  bucket : String
  key : String
  filePath : String
  chunkSize : Int

/-- The `UploadConfiguration` struct of `part_000`. -/
structure UploadConfiguration where
  bucket : String
  key : String
  filePath : String
  chunkSize : Int

/-- File-system environment: `content` is the byte content of the file
at the flag path (`none` when `os.Open` fails), and `readFailAt` is the
index of the `f.Read` call (0-based) that fails with a non-EOF error,
if any. -/
structure FileEnv where
  content : Option (List Byte)
  readFailAt : Option Nat

/-- Number of parts a file of `S` bytes yields at chunk size `c`:
`ceil (S / c)`, which is `0` when `S = 0` (and also when `c = 0`, since
a zero-length read terminates the loop at once). -/
def numParts (S c : Nat) : Nat := (S + c - 1) / c

/-- The `UploadPart` calls of a trace, in order: part number and
payload of each `upload` event. -/
def uploadCalls : List Ev → List (Nat × List Byte)
  | [] => []
  | Ev.upload pn p :: es => (pn, p) :: uploadCalls es
  | _ :: es => uploadCalls es

/-- The comparison `sort.Slice` uses in the source: order completed
parts by part number. -/
def partLe (a b : Nat × String) : Bool := a.1 ≤ b.1

/-- The read/upload loop of `main.go` (`for { n, err := f.Read(buffer);
... }`).  Arguments: remaining file bytes, index of the next read call,
next part number, accumulated `completedParts`.  Returns the events the
loop emits and either the accumulated parts (loop left via `break`) or
the fatal error.  On a non-EOF read error `main.go` calls `log.Fatalf`
directly — no abort, no close.  On an `UploadPart` failure it calls
`AbortMultipartUpload` (discarding the result) and then `log.Fatalf`. -/
def mainGoPartLoop (client : ClientOracle) (readFailAt : Option Nat) (c : Nat)
    (file : List Byte) (readIdx partNum : Nat)
    (completedParts : List (Nat × String)) :
    List Ev × Except RunErr (List (Nat × String)) :=
  if c ≠ 0 ∧ readFailAt = some readIdx then
    ([], .error (.readErr readIdx))
  else if h : file.take c = [] then
    ([], .ok completedParts)
  else
    match client.uploadResp partNum with
    | none => ([.upload partNum (file.take c), .abort], .error (.partErr partNum))
    | some etag =>
      let rest := mainGoPartLoop client readFailAt c (file.drop c) (readIdx + 1)
        (partNum + 1) (completedParts ++ [(partNum, etag)])
      (.upload partNum (file.take c) :: rest.1, rest.2)
termination_by file.length
decreasing_by
  simp only [List.length_drop]
  have h1 : c ≠ 0 := by rintro rfl; simp at h
  have h2 : file.length ≠ 0 := by
    intro h0
    rw [List.length_eq_zero] at h0
    rw [h0] at h
    simp at h
  omega

/-- The whole of `main.go`'s `main`, from flag validation to the final
print.  The two validation checks only print, so the flags' bucket,
key, and path never influence control flow; only `chunkSize` does
(as the buffer size). -/
def mainGoRun (flags : Flags) (env : FileEnv) (client : ClientOracle) :
    List Ev × Except RunErr (List (Nat × String)) :=
  match env.content with
  | none => ([], .error .openErr)
  | some file =>
    match client.createResp with
    | none => ([.create], .error .createErr)
    | some _uploadID =>
      if flags.chunkSize < 0 then
        ([.create, .closeF], .error .panicNegSize)
      else
        let r := mainGoPartLoop client env.readFailAt flags.chunkSize.toNat file 0 1 []
        match r.2 with
        | .error e => (.create :: r.1, .error e)
        | .ok completedParts =>
          let sorted := completedParts.mergeSort partLe
          if client.completeOk then
            (.create :: (r.1 ++ [.complete sorted, .closeF]), .ok sorted)
          else
            (.create :: (r.1 ++ [.complete sorted]), .error .completeErr)

/-- The read/upload loop of `uploadParts` in `part_000`.  Identical to
`mainGoPartLoop` except for failure handling: both the read-error and
the upload-error branches `return` an error to the caller (so the
deferred `f.Close()` runs, and no abort happens inside the loop). -/
def uploadPartsLoop (client : ClientOracle) (readFailAt : Option Nat) (c : Nat)
    (file : List Byte) (readIdx partNum : Nat)
    (completedParts : List (Nat × String)) :
    List Ev × Except RunErr (List (Nat × String)) :=
  if c ≠ 0 ∧ readFailAt = some readIdx then
    ([], .error (.readErr readIdx))
  else if h : file.take c = [] then
    ([], .ok completedParts)
  else
    match client.uploadResp partNum with
    | none => ([.upload partNum (file.take c)], .error (.partErr partNum))
    | some etag =>
      let rest := uploadPartsLoop client readFailAt c (file.drop c) (readIdx + 1)
        (partNum + 1) (completedParts ++ [(partNum, etag)])
      (.upload partNum (file.take c) :: rest.1, rest.2)
termination_by file.length
decreasing_by
  simp only [List.length_drop]
  have h1 : c ≠ 0 := by rintro rfl; simp at h
  have h2 : file.length ≠ 0 := by
    intro h0
    rw [List.length_eq_zero] at h0
    rw [h0] at h
    simp at h
  omega

/-- The `uploadParts` function of `part_000`: opens the file itself
(with `defer f.Close()`), runs the loop, sorts the completed parts and
returns them.  Every exit after a successful open runs the deferred
close — `return` and panic both run defers. -/
def uploadParts (cfg : UploadConfiguration) (client : ClientOracle)
    (env : FileEnv) :
    List Ev × Except RunErr (List (Nat × String)) :=
  match env.content with
  | none => ([], .error .openErr)
  | some file =>
    if cfg.chunkSize < 0 then
      ([.closeF], .error .panicNegSize)
    else
      let r := uploadPartsLoop client env.readFailAt cfg.chunkSize.toNat file 0 1 []
      match r.2 with
      | .error e => (r.1 ++ [.closeF], .error e)
      | .ok completedParts =>
        (r.1 ++ [.closeF], .ok (completedParts.mergeSort partLe))

/-- The whole of `part_000`'s `main`: validation (which exits via
`os.Exit(1)` on bad input), session creation, `uploadParts`, abort on
any `uploadParts` error, then completion. -/
def part000Run (flags : Flags) (env : FileEnv) (client : ClientOracle) :
    List Ev × Except RunErr (List (Nat × String)) :=
  if flags.bucket = "" ∨ flags.key = "" ∨ flags.filePath = "" then
    ([], .error .configErr)
  else if flags.chunkSize < minimumChunkSize then
    ([], .error .configErr)
  else
    match client.createResp with
    | none => ([.create], .error .createErr)
    | some _uploadId =>
      let cfg : UploadConfiguration :=
        ⟨flags.bucket, flags.key, flags.filePath, flags.chunkSize⟩
      let r := uploadParts cfg client env
      match r.2 with
      | .error e => (.create :: (r.1 ++ [.abort]), .error e)
      | .ok completedParts =>
        if client.completeOk then
          (.create :: (r.1 ++ [.complete completedParts]), .ok completedParts)
        else
          (.create :: (r.1 ++ [.complete completedParts]), .error .completeErr)

/-! ### Arithmetic facts about the part count -/

theorem numParts_zero_size (c : Nat) : numParts 0 c = 0 := by
  unfold numParts
  rcases Nat.eq_zero_or_pos c with hc | hc
  · simp [hc]
  · exact Nat.div_eq_of_lt (by omega)

theorem numParts_zero_chunk (S : Nat) : numParts S 0 = 0 := by
  simp [numParts]

theorem numParts_step (S c : Nat) (hc : c ≠ 0) (hS : S ≠ 0) :
    numParts S c = numParts (S - c) c + 1 := by
  unfold numParts
  rcases le_or_lt c S with h | h
  · have he : S + c - 1 = S - c + c - 1 + c := by omega
    rw [he, Nat.add_div_right _ (Nat.pos_of_ne_zero hc)]
  · have h1 : S - c = 0 := by omega
    have e0 : (0 + c - 1) / c = 0 := Nat.div_eq_of_lt (by omega)
    have e1 : (S + c - 1) / c = 1 := by
      apply Nat.div_eq_of_lt_le
      · omega
      · omega
    rw [h1, e0, e1]

/-! ### One-step characterizations of the two loops -/

theorem mainGoPartLoop_read_fail {client : ClientOracle} {readFailAt : Option Nat}
    {c : Nat} {file : List Byte} {readIdx partNum : Nat} {acc : List (Nat × String)}
    (hc : c ≠ 0) (hrf : readFailAt = some readIdx) :
    mainGoPartLoop client readFailAt c file readIdx partNum acc =
      ([], .error (.readErr readIdx)) := by
  rw [mainGoPartLoop]
  simp [hc, hrf]

theorem mainGoPartLoop_break {client : ClientOracle} {readFailAt : Option Nat}
    {c : Nat} {file : List Byte} {readIdx partNum : Nat} {acc : List (Nat × String)}
    (hrf : ¬(c ≠ 0 ∧ readFailAt = some readIdx)) (ht : file.take c = []) :
    mainGoPartLoop client readFailAt c file readIdx partNum acc = ([], .ok acc) := by
  rw [mainGoPartLoop]
  simp only [hrf, ht, if_false, dif_pos]

theorem mainGoPartLoop_upload_fail {client : ClientOracle} {readFailAt : Option Nat}
    {c : Nat} {file : List Byte} {readIdx partNum : Nat} {acc : List (Nat × String)}
    (hrf : ¬(c ≠ 0 ∧ readFailAt = some readIdx)) (ht : file.take c ≠ [])
    (hu : client.uploadResp partNum = none) :
    mainGoPartLoop client readFailAt c file readIdx partNum acc =
      ([.upload partNum (file.take c), .abort], .error (.partErr partNum)) := by
  rw [mainGoPartLoop]
  simp [hrf, ht, hu]

theorem mainGoPartLoop_step {client : ClientOracle} {readFailAt : Option Nat}
    {c : Nat} {file : List Byte} {readIdx partNum : Nat} {acc : List (Nat × String)}
    {etag : String}
    (hrf : ¬(c ≠ 0 ∧ readFailAt = some readIdx)) (ht : file.take c ≠ [])
    (hu : client.uploadResp partNum = some etag) :
    mainGoPartLoop client readFailAt c file readIdx partNum acc =
      (.upload partNum (file.take c) ::
        (mainGoPartLoop client readFailAt c (file.drop c) (readIdx + 1) (partNum + 1)
          (acc ++ [(partNum, etag)])).1,
       (mainGoPartLoop client readFailAt c (file.drop c) (readIdx + 1) (partNum + 1)
          (acc ++ [(partNum, etag)])).2) := by
  conv_lhs => rw [mainGoPartLoop]
  simp [hrf, ht, hu]

theorem uploadPartsLoop_read_fail {client : ClientOracle} {readFailAt : Option Nat}
    {c : Nat} {file : List Byte} {readIdx partNum : Nat} {acc : List (Nat × String)}
    (hc : c ≠ 0) (hrf : readFailAt = some readIdx) :
    uploadPartsLoop client readFailAt c file readIdx partNum acc =
      ([], .error (.readErr readIdx)) := by
  rw [uploadPartsLoop]
  simp [hc, hrf]

theorem uploadPartsLoop_break {client : ClientOracle} {readFailAt : Option Nat}
    {c : Nat} {file : List Byte} {readIdx partNum : Nat} {acc : List (Nat × String)}
    (hrf : ¬(c ≠ 0 ∧ readFailAt = some readIdx)) (ht : file.take c = []) :
    uploadPartsLoop client readFailAt c file readIdx partNum acc = ([], .ok acc) := by
  rw [uploadPartsLoop]
  simp only [hrf, ht, if_false, dif_pos]

theorem uploadPartsLoop_upload_fail {client : ClientOracle} {readFailAt : Option Nat}
    {c : Nat} {file : List Byte} {readIdx partNum : Nat} {acc : List (Nat × String)}
    (hrf : ¬(c ≠ 0 ∧ readFailAt = some readIdx)) (ht : file.take c ≠ [])
    (hu : client.uploadResp partNum = none) :
    uploadPartsLoop client readFailAt c file readIdx partNum acc =
      ([.upload partNum (file.take c)], .error (.partErr partNum)) := by
  rw [uploadPartsLoop]
  simp [hrf, ht, hu]

theorem uploadPartsLoop_step {client : ClientOracle} {readFailAt : Option Nat}
    {c : Nat} {file : List Byte} {readIdx partNum : Nat} {acc : List (Nat × String)}
    {etag : String}
    (hrf : ¬(c ≠ 0 ∧ readFailAt = some readIdx)) (ht : file.take c ≠ [])
    (hu : client.uploadResp partNum = some etag) :
    uploadPartsLoop client readFailAt c file readIdx partNum acc =
      (.upload partNum (file.take c) ::
        (uploadPartsLoop client readFailAt c (file.drop c) (readIdx + 1) (partNum + 1)
          (acc ++ [(partNum, etag)])).1,
       (uploadPartsLoop client readFailAt c (file.drop c) (readIdx + 1) (partNum + 1)
          (acc ++ [(partNum, etag)])).2) := by
  conv_lhs => rw [uploadPartsLoop]
  simp [hrf, ht, hu]

/-! ### What the loop guarantees when it terminates via `break` -/

/-- When the `main.go` loop exits through the `n == 0` break, the
completed-parts list extends the accumulator with contiguous part
numbers, there is one `UploadPart` call per part, the payloads
concatenate back to the remaining file bytes (for a nonzero buffer),
and the loop emitted nothing but `upload` events. -/
theorem mainGoPartLoop_ok_spec (client : ClientOracle) (rf : Option Nat) (c : Nat)
    (file : List Byte) (readIdx partNum : Nat) (acc : List (Nat × String)) :
    ∀ l, (mainGoPartLoop client rf c file readIdx partNum acc).2 = .ok l →
    l.map Prod.fst = acc.map Prod.fst ++ List.range' partNum (numParts file.length c) ∧
    (uploadCalls (mainGoPartLoop client rf c file readIdx partNum acc).1).length =
      numParts file.length c ∧
    (c ≠ 0 →
      ((uploadCalls (mainGoPartLoop client rf c file readIdx partNum acc).1).map
        Prod.snd).flatten = file) ∧
    ∀ e ∈ (mainGoPartLoop client rf c file readIdx partNum acc).1,
      ∃ pn p, e = Ev.upload pn p := by
  induction file, readIdx, partNum, acc using mainGoPartLoop.induct client rf c with
  | case1 file readIdx partNum acc hcond =>
    intro l h
    rw [mainGoPartLoop_read_fail hcond.1 hcond.2] at h
    simp at h
  | case2 file readIdx partNum acc hcond ht =>
    intro l h
    rw [mainGoPartLoop_break hcond ht] at h ⊢
    simp only [Except.ok.injEq] at h
    subst h
    rcases List.take_eq_nil_iff.mp ht with hc0 | hfile
    · subst hc0
      simp [uploadCalls, numParts_zero_chunk]
    · subst hfile
      simp [uploadCalls, numParts_zero_size]
  | case3 file readIdx partNum acc hcond ht hu =>
    intro l h
    rw [mainGoPartLoop_upload_fail hcond ht hu] at h
    simp at h
  | case4 file readIdx partNum acc hcond ht etag hu ih =>
    intro l h
    rw [mainGoPartLoop_step hcond ht hu] at h ⊢
    simp only at h
    obtain ⟨ih1, ih2, ih3, ih4⟩ := ih l h
    have hc : c ≠ 0 := by
      intro h0
      rw [h0] at ht
      simp at ht
    have hS : file.length ≠ 0 := by
      intro h0
      rw [List.length_eq_zero] at h0
      rw [h0] at ht
      simp at ht
    have hsplit : numParts file.length c = numParts (file.drop c).length c + 1 := by
      rw [List.length_drop]
      exact numParts_step file.length c hc hS
    refine ⟨?_, ?_, ?_, ?_⟩
    · rw [ih1, hsplit, List.length_drop, List.map_append]
      rw [show numParts (file.length - c) c + 1 = (numParts (file.length - c) c) + 1 from rfl]
      rw [List.range'_succ]
      simp [List.length_drop]
    · simp only [uploadCalls, List.length_cons, ih2]
      rw [hsplit]
    · intro _
      simp only [uploadCalls, List.map_cons, List.flatten_cons]
      rw [ih3 hc]
      exact List.take_append_drop c file
    · intro e he
      rcases List.mem_cons.mp he with rfl | he
      · exact ⟨partNum, file.take c, rfl⟩
      · exact ih4 e he

/-- Fail-fast behaviour of the `main.go` loop: if parts below `k`
upload fine, part `k` exists in the file, and its upload fails, the
loop ends with the part-`k` error, calls abort, and never attempts a
part number above `k`. -/
theorem mainGoPartLoop_fail_spec (client : ClientOracle) (c : Nat) (k : Nat)
    (hfail : client.uploadResp k = none)
    (file : List Byte) (readIdx partNum : Nat) (acc : List (Nat × String)) :
    partNum ≤ k → k < partNum + numParts file.length c →
    (∀ j, partNum ≤ j → j < k → (client.uploadResp j).isSome) →
    (mainGoPartLoop client none c file readIdx partNum acc).2 = .error (.partErr k) ∧
    Ev.abort ∈ (mainGoPartLoop client none c file readIdx partNum acc).1 ∧
    ∀ pn p, Ev.upload pn p ∈ (mainGoPartLoop client none c file readIdx partNum acc).1 →
      pn ≤ k := by
  induction file, readIdx, partNum, acc using mainGoPartLoop.induct client none c with
  | case1 file readIdx partNum acc hcond =>
    simp at hcond
  | case2 file readIdx partNum acc hcond ht =>
    intro h1 h2 _h3
    exfalso
    rcases List.take_eq_nil_iff.mp ht with hc0 | hfile
    · rw [hc0, numParts_zero_chunk] at h2
      omega
    · rw [hfile] at h2
      simp only [List.length_nil, numParts_zero_size] at h2
      omega
  | case3 file readIdx partNum acc hcond ht hu =>
    intro h1 _h2 h3
    have hk : partNum = k := by
      by_contra hne
      have hlt : partNum < k := lt_of_le_of_ne h1 hne
      have := h3 partNum le_rfl hlt
      rw [hu] at this
      simp at this
    subst hk
    rw [mainGoPartLoop_upload_fail hcond ht hu]
    refine ⟨rfl, by simp, ?_⟩
    intro pn p hmem
    simp only [List.mem_cons, List.mem_singleton] at hmem
    rcases hmem with h | h | h
    · cases h
      exact le_rfl
    · cases h
    · cases h
  | case4 file readIdx partNum acc hcond ht etag hu ih =>
    intro h1 h2 h3
    have hne : partNum ≠ k := by
      intro h0
      rw [h0, hfail] at hu
      cases hu
    have hlt : partNum < k := lt_of_le_of_ne h1 hne
    have hc : c ≠ 0 := by
      intro h0
      rw [h0] at ht
      simp at ht
    have hS : file.length ≠ 0 := by
      intro h0
      rw [List.length_eq_zero] at h0
      rw [h0] at ht
      simp at ht
    have hsplit : numParts file.length c = numParts (file.drop c).length c + 1 := by
      rw [List.length_drop]
      exact numParts_step file.length c hc hS
    obtain ⟨c1, c2, c3⟩ := ih (by omega) (by omega) (fun j hj hjk => h3 j (by omega) hjk)
    rw [mainGoPartLoop_step hcond ht hu]
    refine ⟨c1, List.mem_cons_of_mem _ c2, ?_⟩
    intro pn p hmem
    rcases List.mem_cons.mp hmem with h | h
    · cases h
      exact le_of_lt hlt
    · exact c3 pn p h

/-- The inline loop of `main.go` and the loop of `uploadParts` in
`part_000` always issue the same `UploadPart` calls and compute the
same result (completed parts or error). -/
theorem loops_agree (client : ClientOracle) (rf : Option Nat) (c : Nat)
    (file : List Byte) (readIdx partNum : Nat) (acc : List (Nat × String)) :
    uploadCalls (mainGoPartLoop client rf c file readIdx partNum acc).1 =
      uploadCalls (uploadPartsLoop client rf c file readIdx partNum acc).1 ∧
    (mainGoPartLoop client rf c file readIdx partNum acc).2 =
      (uploadPartsLoop client rf c file readIdx partNum acc).2 := by
  induction file, readIdx, partNum, acc using mainGoPartLoop.induct client rf c with
  | case1 file readIdx partNum acc hcond =>
    rw [mainGoPartLoop_read_fail hcond.1 hcond.2, uploadPartsLoop_read_fail hcond.1 hcond.2]
    exact ⟨rfl, rfl⟩
  | case2 file readIdx partNum acc hcond ht =>
    rw [mainGoPartLoop_break hcond ht, uploadPartsLoop_break hcond ht]
    exact ⟨rfl, rfl⟩
  | case3 file readIdx partNum acc hcond ht hu =>
    rw [mainGoPartLoop_upload_fail hcond ht hu, uploadPartsLoop_upload_fail hcond ht hu]
    exact ⟨by simp [uploadCalls], rfl⟩
  | case4 file readIdx partNum acc hcond ht etag hu ih =>
    rw [mainGoPartLoop_step hcond ht hu, uploadPartsLoop_step hcond ht hu]
    exact ⟨by simp only [uploadCalls]; rw [ih.1], ih.2⟩

/-! ### Trace helpers -/

/-- Whether an event is a `CompleteMultipartUpload` call. -/
def isCompleteEv : Ev → Bool
  | Ev.complete _ => true
  | _ => false

theorem uploadCalls_append (l1 l2 : List Ev) :
    uploadCalls (l1 ++ l2) = uploadCalls l1 ++ uploadCalls l2 := by
  induction l1 with
  | nil => rfl
  | cons e es ih =>
    cases e <;> simp [uploadCalls, ih]

/-! ### Case characterizations of the full runs -/

theorem mainGoRun_open_fail {flags : Flags} {env : FileEnv} {client : ClientOracle}
    (hf : env.content = none) :
    mainGoRun flags env client = ([], .error .openErr) := by
  simp [mainGoRun, hf]

theorem mainGoRun_create_fail {flags : Flags} {env : FileEnv} {client : ClientOracle}
    {file : List Byte}
    (hf : env.content = some file) (hcr : client.createResp = none) :
    mainGoRun flags env client = ([.create], .error .createErr) := by
  simp [mainGoRun, hf, hcr]

theorem mainGoRun_neg_chunk {flags : Flags} {env : FileEnv} {client : ClientOracle}
    {file : List Byte} {uid : String}
    (hf : env.content = some file) (hcr : client.createResp = some uid)
    (hnn : flags.chunkSize < 0) :
    mainGoRun flags env client = ([.create, .closeF], .error .panicNegSize) := by
  simp [mainGoRun, hf, hcr, hnn]

theorem mainGoRun_loop_error {flags : Flags} {env : FileEnv} {client : ClientOracle}
    {file : List Byte} {uid : String} {e : RunErr}
    (hf : env.content = some file) (hcr : client.createResp = some uid)
    (hnn : ¬flags.chunkSize < 0)
    (hl : (mainGoPartLoop client env.readFailAt flags.chunkSize.toNat file 0 1 []).2 =
      .error e) :
    mainGoRun flags env client =
      (.create :: (mainGoPartLoop client env.readFailAt flags.chunkSize.toNat file 0 1 []).1,
        .error e) := by
  simp [mainGoRun, hf, hcr, hnn, hl]

theorem mainGoRun_complete_ok {flags : Flags} {env : FileEnv} {client : ClientOracle}
    {file : List Byte} {uid : String} {l : List (Nat × String)}
    (hf : env.content = some file) (hcr : client.createResp = some uid)
    (hnn : ¬flags.chunkSize < 0)
    (hl : (mainGoPartLoop client env.readFailAt flags.chunkSize.toNat file 0 1 []).2 = .ok l)
    (hco : client.completeOk = true) :
    mainGoRun flags env client =
      (.create :: ((mainGoPartLoop client env.readFailAt flags.chunkSize.toNat file 0 1 []).1 ++
          [.complete (l.mergeSort partLe), .closeF]),
        .ok (l.mergeSort partLe)) := by
  simp [mainGoRun, hf, hcr, hnn, hl, hco]

theorem mainGoRun_complete_fail {flags : Flags} {env : FileEnv} {client : ClientOracle}
    {file : List Byte} {uid : String} {l : List (Nat × String)}
    (hf : env.content = some file) (hcr : client.createResp = some uid)
    (hnn : ¬flags.chunkSize < 0)
    (hl : (mainGoPartLoop client env.readFailAt flags.chunkSize.toNat file 0 1 []).2 = .ok l)
    (hco : client.completeOk = false) :
    mainGoRun flags env client =
      (.create :: ((mainGoPartLoop client env.readFailAt flags.chunkSize.toNat file 0 1 []).1 ++
          [.complete (l.mergeSort partLe)]),
        .error .completeErr) := by
  simp [mainGoRun, hf, hcr, hnn, hl, hco]

/-- Inversion of a successful `main.go` run: the file opened, the
session was created, the buffer size was non-negative, the loop ended
via `break`, and the completion call succeeded on the sorted parts. -/
theorem mainGoRun_ok_inv {flags : Flags} {env : FileEnv} {client : ClientOracle}
    {evs : List Ev} {sorted : List (Nat × String)}
    (h : mainGoRun flags env client = (evs, .ok sorted)) :
    ∃ file uid l,
      env.content = some file ∧ client.createResp = some uid ∧
      ¬flags.chunkSize < 0 ∧ client.completeOk = true ∧
      (mainGoPartLoop client env.readFailAt flags.chunkSize.toNat file 0 1 []).2 = .ok l ∧
      sorted = l.mergeSort partLe ∧
      evs = .create ::
        ((mainGoPartLoop client env.readFailAt flags.chunkSize.toNat file 0 1 []).1 ++
          [.complete (l.mergeSort partLe), .closeF]) := by
  rcases henv : env.content with _ | file
  · rw [mainGoRun_open_fail henv] at h
    simp at h
  rcases hcr : client.createResp with _ | uid
  · rw [mainGoRun_create_fail henv hcr] at h
    simp at h
  by_cases hnn : flags.chunkSize < 0
  · rw [mainGoRun_neg_chunk henv hcr hnn] at h
    simp at h
  rcases hl : (mainGoPartLoop client env.readFailAt flags.chunkSize.toNat file 0 1 []).2
    with e | l
  · rw [mainGoRun_loop_error henv hcr hnn hl] at h
    simp at h
  rcases hco : client.completeOk with _ | _
  · rw [mainGoRun_complete_fail henv hcr hnn hl hco] at h
    simp at h
  · rw [mainGoRun_complete_ok henv hcr hnn hl hco] at h
    rw [Prod.ext_iff] at h
    simp only [Except.ok.injEq] at h
    exact ⟨file, uid, l, rfl, rfl, hnn, rfl, hl, h.2.symm, h.1.symm⟩

theorem chunk_toNat_ne_zero {cs : Int} (hmin : minimumChunkSize ≤ cs) : cs.toNat ≠ 0 := by
  have h5 : (0 : Int) < minimumChunkSize := by norm_num [minimumChunkSize]
  omega

theorem chunk_not_neg {cs : Int} (hmin : minimumChunkSize ≤ cs) : ¬cs < 0 := by
  have h5 : (0 : Int) < minimumChunkSize := by norm_num [minimumChunkSize]
  omega

/-! ### The claims -/

/-- Claim C5: for every successful run, the completion manifest passed
to `CompleteMultipartUpload` (which is also the run's final
completed-parts value) has part numbers forming exactly the contiguous
sequence `1..N` for `N` its length — sorted ascending, no duplicates,
no gaps. -/
theorem manifest_part_numbers_contiguous
    (flags : Flags) (env : FileEnv) (client : ClientOracle)
    (evs : List Ev) (sorted : List (Nat × String))
    (h : mainGoRun flags env client = (evs, .ok sorted)) :
    sorted.map Prod.fst = List.range' 1 sorted.length ∧
    Ev.complete sorted ∈ evs := by
  obtain ⟨file, uid, l, henv, hcr, hnn, hco, hl, hs, hevs⟩ := mainGoRun_ok_inv h
  obtain ⟨m1, _m2, _m3, _m4⟩ := mainGoPartLoop_ok_spec client env.readFailAt
    flags.chunkSize.toNat file 0 1 [] l hl
  simp only [List.map_nil, List.nil_append] at m1
  have hpair : l.Pairwise (fun a b => partLe a b = true) := by
    have hlt : List.Pairwise (· < ·) (l.map Prod.fst) := by
      rw [m1]
      exact List.pairwise_lt_range' 1 _ 1
    exact (List.pairwise_map.mp hlt).imp (by
      intro a b hab
      simp only [partLe, decide_eq_true_eq]
      omega)
  have hms : l.mergeSort partLe = l := List.mergeSort_of_sorted hpair
  have hlen : l.length = numParts file.length flags.chunkSize.toNat := by
    have := congrArg List.length m1
    simpa using this
  constructor
  · rw [hs, hms, m1, hlen]
  · rw [hevs, hs, hms]
    simp

/-- Claim C6: for a file of `S` bytes and a chunk size at or above the
service minimum, a run whose loop completes uploads exactly
`ceil (S / C)` parts when `S > 0` and `0` parts when `S = 0`; the
manifest has one entry per `UploadPart` call. -/
theorem part_count_eq_ceil
    (flags : Flags) (env : FileEnv) (client : ClientOracle) (file : List Byte)
    (evs : List Ev) (sorted : List (Nat × String))
    (hmin : minimumChunkSize ≤ flags.chunkSize)
    (hf : env.content = some file)
    (h : mainGoRun flags env client = (evs, .ok sorted)) :
    (file.length ≠ 0 →
      sorted.length =
        (file.length + flags.chunkSize.toNat - 1) / flags.chunkSize.toNat) ∧
    (file.length = 0 → sorted.length = 0) ∧
    (uploadCalls evs).length = sorted.length := by
  obtain ⟨file', uid, l, henv, hcr, hnn, hco, hl, hs, hevs⟩ := mainGoRun_ok_inv h
  rw [hf] at henv
  have hff : file = file' := Option.some_inj.mp henv
  rw [← hff] at hl hevs
  obtain ⟨m1, m2, _m3, _m4⟩ := mainGoPartLoop_ok_spec client env.readFailAt
    flags.chunkSize.toNat file 0 1 [] l hl
  simp only [List.map_nil, List.nil_append] at m1
  have hlen : l.length = numParts file.length flags.chunkSize.toNat := by
    have := congrArg List.length m1
    simpa using this
  have hslen : sorted.length = l.length := by
    rw [hs]
    exact (List.mergeSort_perm l partLe).length_eq
  have hcalls : uploadCalls evs =
      uploadCalls (mainGoPartLoop client env.readFailAt flags.chunkSize.toNat file 0 1 []).1 := by
    rw [hevs]
    simp [uploadCalls, uploadCalls_append]
  refine ⟨?_, ?_, ?_⟩
  · intro _
    rw [hslen, hlen]
    rfl
  · intro h0
    rw [hslen, hlen, h0, numParts_zero_size]
  · rw [hcalls, m2, hslen, hlen]

/-- Claim C7: for every successful run with a service-compliant chunk
size, concatenating the payloads submitted to `UploadPart`, in call
(= part-number) order, yields exactly the bytes of the source file. -/
theorem payload_concat_roundtrip
    (flags : Flags) (env : FileEnv) (client : ClientOracle) (file : List Byte)
    (evs : List Ev) (sorted : List (Nat × String))
    (hmin : minimumChunkSize ≤ flags.chunkSize)
    (hf : env.content = some file)
    (h : mainGoRun flags env client = (evs, .ok sorted)) :
    ((uploadCalls evs).map Prod.snd).flatten = file := by
  obtain ⟨file', uid, l, henv, hcr, hnn, hco, hl, hs, hevs⟩ := mainGoRun_ok_inv h
  rw [hf] at henv
  have hff : file = file' := Option.some_inj.mp henv
  rw [← hff] at hl hevs
  obtain ⟨_m1, _m2, m3, _m4⟩ := mainGoPartLoop_ok_spec client env.readFailAt
    flags.chunkSize.toNat file 0 1 [] l hl
  have hcalls : uploadCalls evs =
      uploadCalls (mainGoPartLoop client env.readFailAt flags.chunkSize.toNat file 0 1 []).1 := by
    rw [hevs]
    simp [uploadCalls, uploadCalls_append]
  rw [hcalls]
  exact m3 (chunk_toNat_ne_zero hmin)

/-- Claim C8: when all parts uploaded but the completion call fails,
the run ends with the completion-phase error (a constructor distinct
from every part-upload error), `AbortMultipartUpload` is never
invoked, and the single completion call is not retried. -/
theorem completion_failure_leaves_session_open
    (flags : Flags) (env : FileEnv) (client : ClientOracle)
    (file : List Byte) (uid : String) (l : List (Nat × String))
    (hf : env.content = some file) (hcr : client.createResp = some uid)
    (hnn : ¬flags.chunkSize < 0)
    (hl : (mainGoPartLoop client env.readFailAt flags.chunkSize.toNat file 0 1 []).2 = .ok l)
    (hco : client.completeOk = false) :
    (mainGoRun flags env client).2 = .error .completeErr ∧
    Ev.abort ∉ (mainGoRun flags env client).1 ∧
    (mainGoRun flags env client).1.countP isCompleteEv = 1 := by
  obtain ⟨_m1, _m2, _m3, m4⟩ := mainGoPartLoop_ok_spec client env.readFailAt
    flags.chunkSize.toNat file 0 1 [] l hl
  rw [mainGoRun_complete_fail hf hcr hnn hl hco]
  refine ⟨rfl, ?_, ?_⟩
  · intro hmem
    rcases List.mem_cons.mp hmem with h | hmem2
    · exact Ev.noConfusion h
    rcases List.mem_append.mp hmem2 with h | h
    · obtain ⟨pn, p, hp⟩ := m4 _ h
      exact Ev.noConfusion hp
    · exact Ev.noConfusion (List.mem_singleton.mp h)
  · have h0 : (mainGoPartLoop client env.readFailAt
        flags.chunkSize.toNat file 0 1 []).1.countP isCompleteEv = 0 := by
      rw [List.countP_eq_zero]
      intro e he
      obtain ⟨pn, p, hp⟩ := m4 e he
      rw [hp]
      simp [isCompleteEv]
    simp [List.countP_cons, List.countP_append, isCompleteEv, h0]

/-- Claim C4: if parts `1..k-1` upload fine and the upload of part `k`
fails (with part `k` existing in the file), then no part numbered above
`k` is ever attempted, `AbortMultipartUpload` is invoked, and the run
terminates with the part-`k` error — independently of the abort call's
own outcome (`client.abortOk` is unconstrained and unread). -/
theorem part_failure_stops_loop_and_aborts
    (flags : Flags) (env : FileEnv) (client : ClientOracle)
    (file : List Byte) (uid : String) (k : Nat)
    (hf : env.content = some file) (hcr : client.createResp = some uid)
    (hrf : env.readFailAt = none)
    (hmin : minimumChunkSize ≤ flags.chunkSize)
    (hk1 : 1 ≤ k)
    (hkN : k ≤ numParts file.length flags.chunkSize.toNat)
    (hfail : client.uploadResp k = none)
    (hok : ∀ j, 1 ≤ j → j < k → (client.uploadResp j).isSome) :
    (mainGoRun flags env client).2 = .error (.partErr k) ∧
    Ev.abort ∈ (mainGoRun flags env client).1 ∧
    ∀ pn p, Ev.upload pn p ∈ (mainGoRun flags env client).1 → pn ≤ k := by
  have hnn : ¬flags.chunkSize < 0 := chunk_not_neg hmin
  obtain ⟨c1, c2, c3⟩ :=
    mainGoPartLoop_fail_spec client flags.chunkSize.toNat k hfail file 0 1 []
      hk1 (by omega) hok
  rw [← hrf] at c1 c2 c3
  rw [mainGoRun_loop_error hf hcr hnn c1]
  refine ⟨rfl, List.mem_cons_of_mem _ c2, ?_⟩
  intro pn p hmem
  rcases List.mem_cons.mp hmem with h | h
  · exact Ev.noConfusion h
  · exact c3 pn p h

/-- Claim C9: with the `chunkSize` flag set to `0` and a non-empty
source file, `main.go` does not stop at validation (the warning only
prints): it creates the session, the first `Read` into the zero-length
buffer returns 0 bytes, the loop breaks with zero parts, and the run
completes the upload with an empty manifest — an empty object instead
of an error. -/
theorem zero_chunk_size_uploads_empty_object
    (flags : Flags) (env : FileEnv) (client : ClientOracle)
    (file : List Byte) (uid : String)
    (hcs : flags.chunkSize = 0) (hf : env.content = some file) (hne : file ≠ [])
    (hcr : client.createResp = some uid) (hco : client.completeOk = true) :
    mainGoRun flags env client = ([.create, .complete [], .closeF], .ok []) := by
  have hnn : ¬flags.chunkSize < 0 := by omega
  have hl : (mainGoPartLoop client env.readFailAt flags.chunkSize.toNat file 0 1 []).2 =
      .ok [] := by
    rw [mainGoPartLoop_break (by simp [hcs]) (by simp [hcs])]
  rw [mainGoRun_complete_ok hf hcr hnn hl hco]
  rw [mainGoPartLoop_break (by simp [hcs]) (by simp [hcs])]
  simp [List.mergeSort_nil]

/-- Claim C10: given the same file bytes, chunk size and client
responses, `part_000`'s `uploadParts` issues exactly the same sequence
of `UploadPart` calls as `main.go`'s inline loop, and returns exactly
the completed-parts list that `main.go` goes on to submit (the inline
loop's result after the sort) — or the identical error. -/
theorem uploadParts_refines_inline_loop
    (cfg : UploadConfiguration) (env : FileEnv) (client : ClientOracle)
    (file : List Byte)
    (hf : env.content = some file) (hnn : ¬cfg.chunkSize < 0) :
    uploadCalls (mainGoPartLoop client env.readFailAt cfg.chunkSize.toNat file 0 1 []).1 =
      uploadCalls (uploadParts cfg client env).1 ∧
    Except.map (fun l => l.mergeSort partLe)
        (mainGoPartLoop client env.readFailAt cfg.chunkSize.toNat file 0 1 []).2 =
      (uploadParts cfg client env).2 := by
  obtain ⟨ha, hb⟩ := loops_agree client env.readFailAt cfg.chunkSize.toNat file 0 1 []
  unfold uploadParts
  rw [hf]
  simp only [hnn, if_false]
  rcases hl : (uploadPartsLoop client env.readFailAt cfg.chunkSize.toNat file 0 1 []).2
    with e | l
  · rw [hl] at hb
    simp only [hl]
    constructor
    · rw [ha, uploadCalls_append]
      simp [uploadCalls]
    · rw [hb]
      rfl
  · rw [hl] at hb
    simp only [hl]
    constructor
    · rw [ha, uploadCalls_append]
      simp [uploadCalls]
    · rw [hb]
      rfl

/-! ### Concrete single-chunk evaluations -/

theorem mainGoPartLoop_one_chunk {client : ClientOracle} {c : Nat} {file : List Byte}
    {etag : String}
    (hne : file ≠ []) (hlen : file.length ≤ c) (hu : client.uploadResp 1 = some etag) :
    mainGoPartLoop client none c file 0 1 [] = ([.upload 1 file], .ok [(1, etag)]) := by
  have ht : file.take c = file := List.take_of_length_le hlen
  have hd : file.drop c = [] := List.drop_eq_nil_of_le hlen
  rw [mainGoPartLoop_step (by simp) (by rw [ht]; exact hne) hu]
  rw [hd, mainGoPartLoop_break (by simp) (by simp), ht]
  simp

theorem mainGoRun_one_chunk {flags : Flags} {env : FileEnv} {client : ClientOracle}
    {file : List Byte} {uid etag : String}
    (hf : env.content = some file) (hrf : env.readFailAt = none)
    (hcr : client.createResp = some uid)
    (hne : file ≠ []) (hnn : ¬flags.chunkSize < 0)
    (hlen : file.length ≤ flags.chunkSize.toNat)
    (hu : client.uploadResp 1 = some etag) (hco : client.completeOk = true) :
    mainGoRun flags env client =
      ([.create, .upload 1 file, .complete [(1, etag)], .closeF], .ok [(1, etag)]) := by
  have hloop := mainGoPartLoop_one_chunk hne hlen hu
  rw [← hrf] at hloop
  have hl2 : (mainGoPartLoop client env.readFailAt flags.chunkSize.toNat file 0 1 []).2 =
      .ok [(1, etag)] := by rw [hloop]
  rw [mainGoRun_complete_ok hf hcr hnn hl2 hco, hloop]
  simp [List.mergeSort_singleton]

/-- Claim C1 is violated by `main.go` (code bug): after the session is
created, a non-EOF read failure ends the run through `log.Fatalf`
without `AbortMultipartUpload` ever being called — the trace is just
the `create` call.  The refactored variant `part_000` does abort in the
identical scenario, which is the behaviour the spec mandates. -/
theorem read_failure_session_not_aborted :
    mainGoRun ⟨"b", "k", "f", minimumChunkSize⟩ ⟨some [1, 2, 3], some 0⟩
        ⟨some "uid", fun _ => some "e", true, true⟩ =
      ([.create], .error (.readErr 0)) ∧
    Ev.abort ∉ [Ev.create] ∧
    part000Run ⟨"b", "k", "f", minimumChunkSize⟩ ⟨some [1, 2, 3], some 0⟩
        ⟨some "uid", fun _ => some "e", true, true⟩ =
      ([.create, .closeF, .abort], .error (.readErr 0)) := by
  refine ⟨?_, by decide, ?_⟩
  · have hl : (mainGoPartLoop ⟨some "uid", fun _ => some "e", true, true⟩
        (FileEnv.readFailAt ⟨some [1, 2, 3], some 0⟩)
        ((Flags.mk "b" "k" "f" minimumChunkSize).chunkSize.toNat) [1, 2, 3] 0 1 []).2 =
        .error (.readErr 0) := by
      rw [mainGoPartLoop_read_fail (by decide) rfl]
    rw [mainGoRun_loop_error rfl rfl (by decide) hl]
    rw [mainGoPartLoop_read_fail (by decide) rfl]
  · simp only [part000Run, uploadParts]
    rw [if_neg (by decide), if_neg (by decide), if_neg (by decide)]
    rw [uploadPartsLoop_read_fail (by decide) rfl]
    rfl

/-- Claim C2 is violated by `main.go` (code bug): `defer f.Close()`
does not run through `log.Fatalf`/`os.Exit`, so on the part-upload
failure path and on the completion-failure path the handle is never
closed — no `closeF` event appears in either failing trace. -/
theorem close_not_invoked_on_failure_paths :
    mainGoRun ⟨"b", "k", "f", minimumChunkSize⟩ ⟨some [7], none⟩
        ⟨some "uid", fun _ => none, true, true⟩ =
      ([.create, .upload 1 [7], .abort], .error (.partErr 1)) ∧
    Ev.closeF ∉ [Ev.create, Ev.upload 1 [7], Ev.abort] ∧
    mainGoRun ⟨"b", "k", "f", minimumChunkSize⟩ ⟨some [7], none⟩
        ⟨some "uid", fun _ => some "e", false, true⟩ =
      ([.create, .upload 1 [7], .complete [(1, "e")]], .error .completeErr) ∧
    Ev.closeF ∉ [Ev.create, Ev.upload 1 [7], Ev.complete [(1, "e")]] := by
  have ht : ([7] : List Byte).take ((minimumChunkSize : Int)).toNat = [7] :=
    List.take_of_length_le (by decide)
  refine ⟨?_, by decide, ?_, by decide⟩
  · have hl : (mainGoPartLoop ⟨some "uid", fun _ => none, true, true⟩
        (FileEnv.readFailAt ⟨some [7], none⟩)
        ((Flags.mk "b" "k" "f" minimumChunkSize).chunkSize.toNat) [7] 0 1 []).2 =
        .error (.partErr 1) := by
      rw [mainGoPartLoop_upload_fail (by simp) (by rw [ht]; simp) rfl]
    rw [mainGoRun_loop_error rfl rfl (by decide) hl]
    rw [mainGoPartLoop_upload_fail (by simp) (by rw [ht]; simp) rfl, ht]
  · have hloop : mainGoPartLoop ⟨some "uid", fun _ => some "e", false, true⟩
        (FileEnv.readFailAt ⟨some [7], none⟩)
        ((Flags.mk "b" "k" "f" minimumChunkSize).chunkSize.toNat) [7] 0 1 [] =
        ([.upload 1 [7]], .ok [(1, "e")]) :=
      mainGoPartLoop_one_chunk (by simp) (by decide) rfl
    have hl : (mainGoPartLoop ⟨some "uid", fun _ => some "e", false, true⟩
        (FileEnv.readFailAt ⟨some [7], none⟩)
        ((Flags.mk "b" "k" "f" minimumChunkSize).chunkSize.toNat) [7] 0 1 []).2 =
        .ok [(1, "e")] := by rw [hloop]
    rw [mainGoRun_complete_fail rfl rfl (by decide) hl rfl, hloop]
    simp [List.mergeSort_singleton]

/-- Claim C3 is violated by `main.go` (code bug): with an empty bucket
flag the validation block only prints, the run continues, creates the
session and even completes the upload — `CreateMultipartUpload` is
called despite the invalid input.  The refactored variant `part_000`
exits with a configuration error before any client call, which is the
behaviour the claim describes. -/
theorem config_validation_does_not_stop_run :
    mainGoRun ⟨"", "", "", minimumChunkSize⟩ ⟨some [7], none⟩
        ⟨some "uid", fun _ => some "e", true, true⟩ =
      ([.create, .upload 1 [7], .complete [(1, "e")], .closeF], .ok [(1, "e")]) ∧
    part000Run ⟨"", "", "", minimumChunkSize⟩ ⟨some [7], none⟩
        ⟨some "uid", fun _ => some "e", true, true⟩ = ([], .error .configErr) := by
  constructor
  · exact mainGoRun_one_chunk rfl rfl rfl (by simp) (by decide) (by decide) rfl rfl
  · simp only [part000Run]
    rw [if_pos (by decide)]

/-! ### Witnesses: each hypothesis-bearing claim theorem instantiated
at a concrete run -/

/-- Witness for `part_failure_stops_loop_and_aborts`: a 6000000-byte
file at the minimum chunk size has 2 parts; part 2's upload fails. -/
theorem part_failure_stops_loop_and_aborts_witness :
    ((⟨some "u", fun j => if j = 2 then none else some "e", true, true⟩ :
        ClientOracle).uploadResp 2 = none) ∧
    2 ≤ numParts (List.replicate 6000000 (0 : Byte)).length (minimumChunkSize : Int).toNat ∧
    ((mainGoRun ⟨"b", "k", "f", minimumChunkSize⟩
        ⟨some (List.replicate 6000000 (0 : Byte)), none⟩
        ⟨some "u", fun j => if j = 2 then none else some "e", true, true⟩).2 =
        .error (.partErr 2) ∧
      Ev.abort ∈ (mainGoRun ⟨"b", "k", "f", minimumChunkSize⟩
        ⟨some (List.replicate 6000000 (0 : Byte)), none⟩
        ⟨some "u", fun j => if j = 2 then none else some "e", true, true⟩).1 ∧
      ∀ pn p, Ev.upload pn p ∈ (mainGoRun ⟨"b", "k", "f", minimumChunkSize⟩
        ⟨some (List.replicate 6000000 (0 : Byte)), none⟩
        ⟨some "u", fun j => if j = 2 then none else some "e", true, true⟩).1 → pn ≤ 2) := by
  exact ⟨rfl, by rw [List.length_replicate]; decide,
    part_failure_stops_loop_and_aborts ⟨"b", "k", "f", minimumChunkSize⟩
      ⟨some (List.replicate 6000000 (0 : Byte)), none⟩
      ⟨some "u", fun j => if j = 2 then none else some "e", true, true⟩
      (List.replicate 6000000 (0 : Byte)) "u" 2 rfl rfl rfl (by decide) (by decide)
      (by rw [List.length_replicate]; decide) rfl
      (by
        intro j h1 h2
        have hj : j = 1 := by omega
        subst hj
        decide)⟩

/-- Witness for `manifest_part_numbers_contiguous`: a one-part run. -/
theorem manifest_part_numbers_contiguous_witness :
    (mainGoRun ⟨"b5", "k5", "f5", minimumChunkSize⟩ ⟨some [3, 1, 4], none⟩
        ⟨some "u5", fun _ => some "tag5", true, true⟩ =
      ([.create, .upload 1 [3, 1, 4], .complete [(1, "tag5")], .closeF],
        .ok [(1, "tag5")])) ∧
    ([(1, "tag5")] : List (Nat × String)).map Prod.fst =
      List.range' 1 ([(1, "tag5")] : List (Nat × String)).length ∧
    Ev.complete [(1, "tag5")] ∈
      [Ev.create, Ev.upload 1 [3, 1, 4], Ev.complete [(1, "tag5")], Ev.closeF] := by
  exact ⟨mainGoRun_one_chunk rfl rfl rfl (by simp) (by decide) (by decide) rfl rfl,
    manifest_part_numbers_contiguous ⟨"b5", "k5", "f5", minimumChunkSize⟩
      ⟨some [3, 1, 4], none⟩ ⟨some "u5", fun _ => some "tag5", true, true⟩
      [Ev.create, Ev.upload 1 [3, 1, 4], Ev.complete [(1, "tag5")], Ev.closeF]
      [(1, "tag5")]
      (mainGoRun_one_chunk rfl rfl rfl (by simp) (by decide) (by decide) rfl rfl)⟩

/-- Witness for `part_count_eq_ceil`: a 2-byte file at the minimum
chunk size uploads in ceil(2 / 5242880) = 1 part. -/
theorem part_count_eq_ceil_witness :
    minimumChunkSize ≤ (⟨"b6", "k6", "f6", minimumChunkSize⟩ : Flags).chunkSize ∧
    (⟨some [9, 9], none⟩ : FileEnv).content = some [9, 9] ∧
    (mainGoRun ⟨"b6", "k6", "f6", minimumChunkSize⟩ ⟨some [9, 9], none⟩
        ⟨some "u6", fun _ => some "tag6", true, true⟩ =
      ([.create, .upload 1 [9, 9], .complete [(1, "tag6")], .closeF],
        .ok [(1, "tag6")])) ∧
    ((([9, 9] : List Byte).length ≠ 0 →
        ([(1, "tag6")] : List (Nat × String)).length =
          (([9, 9] : List Byte).length + (⟨"b6", "k6", "f6", minimumChunkSize⟩ :
            Flags).chunkSize.toNat - 1) /
            (⟨"b6", "k6", "f6", minimumChunkSize⟩ : Flags).chunkSize.toNat) ∧
      (([9, 9] : List Byte).length = 0 →
        ([(1, "tag6")] : List (Nat × String)).length = 0) ∧
      (uploadCalls [Ev.create, Ev.upload 1 [9, 9], Ev.complete [(1, "tag6")],
        Ev.closeF]).length = ([(1, "tag6")] : List (Nat × String)).length) :=
  ⟨by decide, rfl,
    mainGoRun_one_chunk rfl rfl rfl (by simp) (by decide) (by decide) rfl rfl,
    part_count_eq_ceil ⟨"b6", "k6", "f6", minimumChunkSize⟩ ⟨some [9, 9], none⟩
      ⟨some "u6", fun _ => some "tag6", true, true⟩ [9, 9]
      [Ev.create, Ev.upload 1 [9, 9], Ev.complete [(1, "tag6")], Ev.closeF]
      [(1, "tag6")] (by decide) rfl
      (mainGoRun_one_chunk rfl rfl rfl (by simp) (by decide) (by decide) rfl rfl)⟩

/-- Witness for `payload_concat_roundtrip`: the single 3-byte payload
concatenates back to the file. -/
theorem payload_concat_roundtrip_witness :
    minimumChunkSize ≤ (⟨"b7", "k7", "f7", minimumChunkSize⟩ : Flags).chunkSize ∧
    (⟨some [1, 2, 3], none⟩ : FileEnv).content = some [1, 2, 3] ∧
    (mainGoRun ⟨"b7", "k7", "f7", minimumChunkSize⟩ ⟨some [1, 2, 3], none⟩
        ⟨some "u7", fun _ => some "tag7", true, true⟩ =
      ([.create, .upload 1 [1, 2, 3], .complete [(1, "tag7")], .closeF],
        .ok [(1, "tag7")])) ∧
    ((uploadCalls [Ev.create, Ev.upload 1 [1, 2, 3], Ev.complete [(1, "tag7")],
        Ev.closeF]).map Prod.snd).flatten = [1, 2, 3] :=
  ⟨by decide, rfl,
    mainGoRun_one_chunk rfl rfl rfl (by simp) (by decide) (by decide) rfl rfl,
    payload_concat_roundtrip ⟨"b7", "k7", "f7", minimumChunkSize⟩ ⟨some [1, 2, 3], none⟩
      ⟨some "u7", fun _ => some "tag7", true, true⟩ [1, 2, 3]
      [Ev.create, Ev.upload 1 [1, 2, 3], Ev.complete [(1, "tag7")], Ev.closeF]
      [(1, "tag7")] (by decide) rfl
      (mainGoRun_one_chunk rfl rfl rfl (by simp) (by decide) (by decide) rfl rfl)⟩

/-- Witness for `completion_failure_leaves_session_open`: the single
part uploads, the completion call fails. -/
theorem completion_failure_leaves_session_open_witness :
    ((mainGoPartLoop ⟨some "u8", fun _ => some "t8", false, true⟩
        (⟨some [8], none⟩ : FileEnv).readFailAt
        (⟨"b8", "k8", "f8", minimumChunkSize⟩ : Flags).chunkSize.toNat [8] 0 1 []).2 =
      .ok [(1, "t8")]) ∧
    (⟨some "u8", fun _ => some "t8", false, true⟩ : ClientOracle).completeOk = false ∧
    ((mainGoRun ⟨"b8", "k8", "f8", minimumChunkSize⟩ ⟨some [8], none⟩
        ⟨some "u8", fun _ => some "t8", false, true⟩).2 = .error .completeErr ∧
      Ev.abort ∉ (mainGoRun ⟨"b8", "k8", "f8", minimumChunkSize⟩ ⟨some [8], none⟩
        ⟨some "u8", fun _ => some "t8", false, true⟩).1 ∧
      (mainGoRun ⟨"b8", "k8", "f8", minimumChunkSize⟩ ⟨some [8], none⟩
        ⟨some "u8", fun _ => some "t8", false, true⟩).1.countP isCompleteEv = 1) := by
  exact ⟨by rw [mainGoPartLoop_one_chunk (by simp) (by decide) rfl], rfl,
    completion_failure_leaves_session_open ⟨"b8", "k8", "f8", minimumChunkSize⟩
      ⟨some [8], none⟩ ⟨some "u8", fun _ => some "t8", false, true⟩ [8] "u8" [(1, "t8")]
      rfl rfl (by decide)
      (by rw [mainGoPartLoop_one_chunk (by simp) (by decide) rfl]) rfl⟩

/-- Witness for `zero_chunk_size_uploads_empty_object`: a 2-byte file
with the `chunkSize` flag set to 0. -/
theorem zero_chunk_size_uploads_empty_object_witness :
    (⟨"b9", "k9", "f9", 0⟩ : Flags).chunkSize = 0 ∧
    ([4, 2] : List Byte) ≠ [] ∧
    mainGoRun ⟨"b9", "k9", "f9", 0⟩ ⟨some [4, 2], none⟩
        ⟨some "u9", fun _ => some "t9", true, true⟩ =
      ([.create, .complete [], .closeF], .ok []) := by
  exact ⟨rfl, by simp,
    zero_chunk_size_uploads_empty_object ⟨"b9", "k9", "f9", 0⟩ ⟨some [4, 2], none⟩
      ⟨some "u9", fun _ => some "t9", true, true⟩ [4, 2] "u9" rfl rfl (by simp) rfl rfl⟩

/-- Witness for `uploadParts_refines_inline_loop`: a run with a read
failure at the first read, exercising the error path of both loops. -/
theorem uploadParts_refines_inline_loop_witness :
    (⟨some [5], some 0⟩ : FileEnv).content = some [5] ∧
    ¬(⟨"b10", "k10", "f10", minimumChunkSize⟩ : UploadConfiguration).chunkSize < 0 ∧
    (uploadCalls (mainGoPartLoop ⟨some "u10", fun _ => some "t10", true, true⟩
        (⟨some [5], some 0⟩ : FileEnv).readFailAt
        (⟨"b10", "k10", "f10", minimumChunkSize⟩ :
          UploadConfiguration).chunkSize.toNat [5] 0 1 []).1 =
      uploadCalls (uploadParts ⟨"b10", "k10", "f10", minimumChunkSize⟩
        ⟨some "u10", fun _ => some "t10", true, true⟩ ⟨some [5], some 0⟩).1 ∧
    Except.map (fun l => l.mergeSort partLe)
        (mainGoPartLoop ⟨some "u10", fun _ => some "t10", true, true⟩
          (⟨some [5], some 0⟩ : FileEnv).readFailAt
          (⟨"b10", "k10", "f10", minimumChunkSize⟩ :
            UploadConfiguration).chunkSize.toNat [5] 0 1 []).2 =
      (uploadParts ⟨"b10", "k10", "f10", minimumChunkSize⟩
        ⟨some "u10", fun _ => some "t10", true, true⟩ ⟨some [5], some 0⟩).2) := by
  exact ⟨rfl, by decide,
    uploadParts_refines_inline_loop ⟨"b10", "k10", "f10", minimumChunkSize⟩
      ⟨some [5], some 0⟩ ⟨some "u10", fun _ => some "t10", true, true⟩ [5]
      rfl (by decide)⟩

end Stitch
